import Mathlib

/-!
Verification development for the 41Agent repository (python sources:
`src/orchestrator.py`, `src/avatar_controller.py`, `src/vm_controller.py`,
`src/agent.py`, `src/config.py`).

Shallow embedding conventions:
* Python floats are modelled as exact rationals (`ℚ`).  Every property proved
  here is either exact (values such as `0`, `0.5`, `1.0`) or far from any
  rounding boundary, so binary-float rounding does not affect any statement.
* External collaborators (the QMP endpoint, the VNC client, the memory store,
  the multimodal model) are modelled as oracle fields of a `DeviceEnv`
  record, matching the spec's "excluded, treated as external collaborators".
* `async` side effects are modelled as event traces: each function returns
  the ordered list of observable events it performs.
* `math.sin` is an external pure library function; the animation tick takes
  it as an explicit function argument.
-/

namespace Agent41

/-- The double-quote character, written via its code point. -/
def qc : Char := Char.ofNat 34

/-- The opening-brace character, written via its code point. -/
def obr : Char := Char.ofNat 123

/-- The closing-brace character, written via its code point. -/
def cbr : Char := Char.ofNat 125

/-! ## JSON values and `json.loads`

Model of the Python `json` module as used by
`Orchestrator._extract_tool_calls` (`json.loads(args_match.group(1))`).
Numbers are parsed into exact rationals (see the header note on floats). -/

/-- A JSON value as produced by `json.loads`. -/
inductive Json where
  | jnull : Json
  | jbool (b : Bool) : Json
  | jnum (q : ℚ) : Json
  | jstr (s : String) : Json
  | jarr (xs : List Json) : Json
  | jobj (kvs : List (String × Json)) : Json
deriving Repr

/-- JSON insignificant whitespace (space, tab, newline, carriage return). -/
def jsonWs (c : Char) : Bool :=
  c = ' ' || c = Char.ofNat 9 || c = Char.ofNat 10 || c = Char.ofNat 13

/-- Drop leading JSON whitespace. -/
def skipWs (cs : List Char) : List Char := cs.dropWhile jsonWs

/-- Value of a run of decimal digit characters. -/
def digitsVal (ds : List Char) : Nat :=
  ds.foldl (fun acc c => acc * 10 + (c.toNat - 48)) 0

/-- Hexadecimal digit test (`[0-9a-fA-F]`). -/
def isHexDig (c : Char) : Bool :=
  c.isDigit || ('a' ≤ c && c ≤ 'f') || ('A' ≤ c && c ≤ 'F')

/-- Parse the body of a JSON string literal (the opening quote has already
been consumed), handling the escape sequences accepted by `json.loads`.
Returns the decoded characters and the remaining input.  Unescaped control
characters and invalid escapes fail, as in the strict Python parser.
`\uXXXX` surrogate pairs are decoded as two separate code units. -/
def parseStrBody : List Char → Option (List Char × List Char)
  | [] => none
  | c :: rest =>
    if c = qc then some ([], rest)
    else if c = '\\' then
      match rest with
      | [] => none
      | e :: rest2 =>
        let simpleEsc : Option Char :=
          if e = qc then some qc
          else if e = '\\' then some '\\'
          else if e = '/' then some '/'
          else if e = 'b' then some (Char.ofNat 8)
          else if e = 'f' then some (Char.ofNat 12)
          else if e = 'n' then some (Char.ofNat 10)
          else if e = 'r' then some (Char.ofNat 13)
          else if e = 't' then some (Char.ofNat 9)
          else none
        match simpleEsc with
        | some d =>
          match parseStrBody rest2 with
          | some (tail, rem) => some (d :: tail, rem)
          | none => none
        | none =>
          if e = 'u' then
            match rest2 with
            | h1 :: h2 :: h3 :: h4 :: rest3 =>
              if isHexDig h1 && isHexDig h2 && isHexDig h3 && isHexDig h4 then
                let hv : Char → Nat := fun h =>
                  if h.isDigit then h.toNat - 48
                  else if 'a' ≤ h ∧ h ≤ 'f' then h.toNat - 87
                  else h.toNat - 55
                let n := ((hv h1 * 16 + hv h2) * 16 + hv h3) * 16 + hv h4
                match parseStrBody rest3 with
                | some (tail, rem) => some (Char.ofNat n :: tail, rem)
                | none => none
              else none
            | _ => none
          else none
    else if c.toNat < 32 then none
    else
      match parseStrBody rest with
      | some (tail, rem) => some (c :: tail, rem)
      | none => none

/-- Parse a JSON number starting at the head of the input (grammar
`-?(0|[1-9][0-9]*)(\.[0-9]+)?([eE][+-]?[0-9]+)?`), returning its exact
rational value and the remaining input. -/
def parseNum (cs : List Char) : Option (ℚ × List Char) :=
  let (sgn, cs1) : ℚ × List Char :=
    match cs with
    | '-' :: t => (-1, t)
    | _ => (1, cs)
  match cs1 with
  | [] => none
  | d :: t =>
    if ¬ d.isDigit then none
    else
      let (intDigits, rest1) : List Char × List Char :=
        if d = '0' then ([d], t)
        else (cs1.takeWhile Char.isDigit, cs1.dropWhile Char.isDigit)
      let ipart : ℚ := (digitsVal intDigits : ℚ)
      let fracStep : Option (ℚ × List Char) :=
        match rest1 with
        | '.' :: t2 =>
          let fd := t2.takeWhile Char.isDigit
          if fd = [] then none
          else some (ipart + (digitsVal fd : ℚ) / ((10 : ℚ) ^ fd.length),
                     t2.dropWhile Char.isDigit)
        | _ => some (ipart, rest1)
      match fracStep with
      | none => none
      | some (mag, rest2) =>
        match rest2 with
        | e :: t3 =>
          if e = 'e' ∨ e = 'E' then
            let (esgn, t4) : Int × List Char :=
              match t3 with
              | '+' :: t5 => (1, t5)
              | '-' :: t5 => (-1, t5)
              | _ => (1, t3)
            let ed := t4.takeWhile Char.isDigit
            if ed = [] then none
            else some (sgn * mag * (10 : ℚ) ^ (esgn * (digitsVal ed : Int)),
                       t4.dropWhile Char.isDigit)
          else some (sgn * mag, rest2)
        | [] => some (sgn * mag, rest2)

mutual

/-- Parse a JSON value (fuel-bounded recursive descent; the initial fuel
`length + 1` always suffices because every recursive call consumes at least
one input character first). -/
def parseValue : Nat → List Char → Option (Json × List Char)
  | 0, _ => none
  | Nat.succ fuel, cs0 =>
    let cs := skipWs cs0
    match cs with
    | [] => none
    | c :: rest =>
      if c = qc then
        match parseStrBody rest with
        | some (body, rem) => some (Json.jstr (String.mk body), rem)
        | none => none
      else if c = obr then
        let rest2 := skipWs rest
        match rest2 with
        | c2 :: rest3 =>
          if c2 = cbr then some (Json.jobj [], rest3)
          else parseMembers fuel [] rest2
        | [] => none
      else if c = '[' then
        let rest2 := skipWs rest
        match rest2 with
        | c2 :: rest3 =>
          if c2 = ']' then some (Json.jarr [], rest3)
          else parseElems fuel [] rest2
        | [] => none
      else if ['t', 'r', 'u', 'e'].isPrefixOf cs then
        some (Json.jbool true, cs.drop 4)
      else if ['f', 'a', 'l', 's', 'e'].isPrefixOf cs then
        some (Json.jbool false, cs.drop 5)
      else if ['n', 'u', 'l', 'l'].isPrefixOf cs then
        some (Json.jnull, cs.drop 4)
      else
        match parseNum cs with
        | some (q, rem) => some (Json.jnum q, rem)
        | none => none

/-- Parse the members of a JSON object after the opening brace (at least one
member is present; the input starts at the first key). -/
def parseMembers : Nat → List (String × Json) → List Char →
    Option (Json × List Char)
  | 0, _, _ => none
  | Nat.succ fuel, acc, cs0 =>
    let cs := skipWs cs0
    match cs with
    | c :: rest =>
      if c = qc then
        match parseStrBody rest with
        | some (keyChars, rem1) =>
          match skipWs rem1 with
          | ':' :: rem2 =>
            match parseValue fuel rem2 with
            | some (v, rem3) =>
              let acc2 := acc ++ [(String.mk keyChars, v)]
              match skipWs rem3 with
              | ',' :: rem4 => parseMembers fuel acc2 rem4
              | c3 :: rem4 =>
                if c3 = cbr then some (Json.jobj acc2, rem4) else none
              | [] => none
            | none => none
          | _ => none
        | none => none
      else none
    | [] => none

/-- Parse the elements of a JSON array after the opening bracket (at least
one element is present). -/
def parseElems : Nat → List Json → List Char → Option (Json × List Char)
  | 0, _, _ => none
  | Nat.succ fuel, acc, cs0 =>
    match parseValue fuel cs0 with
    | some (v, rem1) =>
      match skipWs rem1 with
      | ',' :: rem2 => parseElems fuel (acc ++ [v]) rem2
      | ']' :: rem2 => some (Json.jarr (acc ++ [v]), rem2)
      | _ => none
    | none => none

end

/-- Model of `json.loads`: parse one JSON document and require only
whitespace to remain. -/
def jsonLoads (cs : List Char) : Option Json :=
  match parseValue (cs.length + 1) cs with
  | some (j, rem) => if skipWs rem = [] then some j else none
  | none => none

/-- Python `dict` indexing on a parsed JSON object (`args["x"]`): the last
binding of a key wins, as in `dict` construction from duplicate keys. -/
def jget (j : Json) (k : String) : Option Json :=
  match j with
  | Json.jobj kvs => kvs.reverse.lookup k
  | _ => none

/-- Python `dict.get(k, d)` on a parsed JSON object. -/
def jgetD (j : Json) (k : String) (d : Json) : Json := (jget j k).getD d

/-- Numeric payload of a JSON value, when it is a number. -/
def Json.asNum : Json → Option ℚ
  | Json.jnum q => some q
  | _ => none

/-! ## Tool-call extraction (`Orchestrator._extract_tool_calls`)

The Python code uses three regular expressions; each is emulated exactly on
the character list of the input:
* `re.findall(r"<tool_call>(.*?)</tool_call>", text, re.DOTALL)` — leftmost,
  non-overlapping matches; the non-greedy interior ends at the first
  following close tag;
* `re.search(r'"name":\s*"([^"]+)"', match)` — first position where the
  literal, optional whitespace, and a nonempty quote-delimited run match;
* `re.search(r'"args":\s*(\x7b.*?\x7d)', match, re.DOTALL)` — first position
  where the literal, optional whitespace, an opening brace and a following
  closing brace match; the capture ends at the first closing brace. -/

/-- Python regex `\s` whitespace class. -/
def regexWs (c : Char) : Bool :=
  c = ' ' || c = Char.ofNat 9 || c = Char.ofNat 10 || c = Char.ofNat 13
    || c = Char.ofNat 11 || c = Char.ofNat 12

/-- Index of the first occurrence of `needle` as a contiguous subsequence of
the input, if any. -/
def indexOfSeq (needle : List Char) : List Char → Option Nat
  | [] => if needle = [] then some 0 else none
  | c :: t =>
    if needle.isPrefixOf (c :: t) then some 0
    else (indexOfSeq needle t).map (· + 1)

/-- `re.search` position scan: try the matcher at every suffix, leftmost
success first. -/
def searchFrom (f : List Char → Option α) : List Char → Option α
  | [] => f []
  | c :: t =>
    match f (c :: t) with
    | some a => some a
    | none => searchFrom f t

/-- The characters of the literal `"name":`. -/
def nameLit : List Char := [qc, 'n', 'a', 'm', 'e', qc, ':']

/-- The characters of the literal `"args":`. -/
def argsLit : List Char := [qc, 'a', 'r', 'g', 's', qc, ':']

/-- Try the pattern `"name":\s*"([^"]+)"` anchored at the head of the input;
return the captured group. -/
def matchNameAt (cs : List Char) : Option String :=
  if nameLit.isPrefixOf cs then
    let r := (cs.drop nameLit.length).dropWhile regexWs
    match r with
    | c :: rest =>
      if c = qc then
        let cap := rest.takeWhile (· ≠ qc)
        if cap ≠ [] ∧ (rest.drop cap.length).head? = some qc then
          some (String.mk cap)
        else none
      else none
    | [] => none
  else none

/-- Try the pattern `"args":\s*(\x7b.*?\x7d)` anchored at the head of the
input; return the captured group (braces included). -/
def matchArgsAt (cs : List Char) : Option (List Char) :=
  if argsLit.isPrefixOf cs then
    let r := (cs.drop argsLit.length).dropWhile regexWs
    match r with
    | c :: rest =>
      if c = obr then
        match rest.findIdx? (· = cbr) with
        | some i => some (obr :: rest.take (i + 1))
        | none => none
      else none
    | [] => none
  else none

/-- The characters of the opening delimiter `<tool_call>`. -/
def openTag : List Char := "<tool_call>".data

/-- The characters of the closing delimiter `</tool_call>`. -/
def closeTag : List Char := "</tool_call>".data

/-- Fuel-bounded worker for `re.findall(r"<tool_call>(.*?)</tool_call>", ·)`:
each complete delimited span contributes its interior, scanning resumes after
the close tag.  Fuel `length + 1` always suffices (every span consumes at
least the two tags). -/
def findSpansAux : Nat → List Char → List (List Char)
  | 0, _ => []
  | Nat.succ fuel, cs =>
    match indexOfSeq openTag cs with
    | none => []
    | some i =>
      let r := cs.drop (i + openTag.length)
      match indexOfSeq closeTag r with
      | none => []
      | some j => r.take j :: findSpansAux fuel (r.drop (j + closeTag.length))

/-- All complete `<tool_call> … </tool_call>` span interiors, left to right. -/
def findSpans (cs : List Char) : List (List Char) :=
  findSpansAux (cs.length + 1) cs

/-- Variant of `findSpansAux` that also records the source position of each
span's opening delimiter (a specification device used to state the
left-to-right ordering of extracted calls). -/
def findSpansPosAux : Nat → Nat → List Char → List (Nat × List Char)
  | 0, _, _ => []
  | Nat.succ fuel, off, cs =>
    match indexOfSeq openTag cs with
    | none => []
    | some i =>
      let r := cs.drop (i + openTag.length)
      match indexOfSeq closeTag r with
      | none => []
      | some j =>
        (off + i, r.take j) ::
          findSpansPosAux fuel (off + i + openTag.length + j + closeTag.length)
            (r.drop (j + closeTag.length))

/-- Spans with the positions of their opening delimiters. -/
def findSpansPos (cs : List Char) : List (Nat × List Char) :=
  findSpansPosAux (cs.length + 1) 0 cs

/-- A structured tool call extracted from model text
(`ToolCall = ⟨name, args⟩`, the dict `{"name": …, "args": …}` built by
`_extract_tool_calls`). -/
structure ToolCall where
  name : String
  args : Json
deriving Repr

/-- Processing of one span interior, mirroring the loop body of
`_extract_tool_calls`: no extractable name drops the span silently; a name
with no args match yields empty arguments; a matched args text that
`json.loads` rejects raises, which the `except` turns into dropping the
span. -/
def parseSpan (m : List Char) : Option ToolCall :=
  match searchFrom matchNameAt m with
  | none => none
  | some nm =>
    match searchFrom matchArgsAt m with
    | none => some ⟨nm, Json.jobj []⟩
    | some argsTxt =>
      match jsonLoads argsTxt with
      | some j => some ⟨nm, j⟩
      | none => none

/-- `Orchestrator._extract_tool_calls`. -/
def extractToolCalls (s : String) : List ToolCall :=
  (findSpans s.data).filterMap parseSpan

/-! ## Avatar controller (`avatar_controller.py`, `Inochi2dController`)

Each controller method is modelled by the ordered list of VMC messages
(`_send_parameter` calls, i.e. `(name, value)` pairs) it emits, together with
its effect on the mutable `AvatarState`. -/

/-- `AvatarExpression` enumeration. -/
inductive AvatarExpression where
  | NEUTRAL | HAPPY | SAD | SURPRISED | ANGRY | THINKING | TALKING | LISTENING
deriving Repr, DecidableEq

/-- `AvatarExpression(value)` enum construction from its string value;
`none` models the `ValueError` raised on an unknown value. -/
def parseExpression (s : String) : Option AvatarExpression :=
  if s = "neutral" then some .NEUTRAL
  else if s = "happy" then some .HAPPY
  else if s = "sad" then some .SAD
  else if s = "surprised" then some .SURPRISED
  else if s = "angry" then some .ANGRY
  else if s = "thinking" then some .THINKING
  else if s = "talking" then some .TALKING
  else if s = "listening" then some .LISTENING
  else none

/-- A VMC blend-parameter message `(name, value)` sent by `_send_parameter`. -/
abbrev Msg := String × ℚ

/-- The `AvatarState` dataclass. -/
structure AvatarState where
  expression : AvatarExpression := .NEUTRAL
  mouth_open : ℚ := 0
  eye_blink_left : ℚ := 0
  eye_blink_right : ℚ := 0
  brow_raise : ℚ := 0
  mouth_smile : ℚ := 0
  eye_gaze_x : ℚ := 0
  eye_gaze_y : ℚ := 0
  head_tilt : ℚ := 0
  is_talking : Bool := false
deriving Repr, DecidableEq

/-- Messages emitted by `reset` (also the tail of `stop`, which cancels the
animation task, awaits it, and then runs `reset`). -/
def resetMsgs : List Msg :=
  [("MouthOpen", 0), ("EyeBlinkLeft", 0), ("EyeBlinkRight", 0),
   ("BrowInnerUp", 0), ("MouthSmileLeft", 0),
   ("EyeLookUpLeft", 1/2), ("EyeLookDownLeft", 1/2)]

/-- `stop_talking`: clears the talking flag and emits `MouthOpen = 0`
(without touching the `mouth_open` state field). -/
def stopTalkingRun (s : AvatarState) : AvatarState × List Msg :=
  ({ s with is_talking := false }, [("MouthOpen", 0)])

/-- `start_talking`: sets the talking flag, emitting nothing. -/
def startTalkingRun (s : AvatarState) : AvatarState × List Msg :=
  ({ s with is_talking := true }, [])

/-- Messages emitted by one `blink` call. -/
def blinkMsgs : List Msg :=
  [("EyeBlinkLeft", 1), ("EyeBlinkRight", 1),
   ("EyeBlinkLeft", 0), ("EyeBlinkRight", 0)]

/-- Messages emitted by `set_mouth_smile value`. -/
def setMouthSmileMsgs (v : ℚ) : List Msg :=
  [("MouthSmileLeft", v), ("MouthSmileRight", v)]

/-- Messages emitted by `look_at x y`. -/
def lookAtMsgs (y : ℚ) : List Msg :=
  [("EyeLookUpLeft", 1/2 + y * (1/2)), ("EyeLookDownLeft", 1/2 + y * (1/2)),
   ("EyeLookUpRight", 1/2 + y * (1/2)), ("EyeLookDownRight", 1/2 + y * (1/2))]

/-- Messages emitted by `nod`. -/
def nodMsgs : List Msg :=
  [("JawOpen", 1/5), ("JawOpen", 0), ("JawOpen", 1/5), ("JawOpen", 0)]

/-- Messages emitted by `shake_head`. -/
def shakeHeadMsgs : List Msg :=
  [("HeadPosX", 1/10), ("HeadPosX", -(1/10)), ("HeadPosX", 1/10),
   ("HeadPosX", -(1/10)), ("HeadPosX", 0)]

/-- One iteration of `_animation_loop` (the 60 fps tick).  `sinQ` stands for
the external `math.sin`; `t` is the phase accumulator, `lastBlink` the last
blink time and `now` the current time.  Returns the new state, the emitted
messages, the new phase and the new last-blink time. -/
def animationTick (sinQ : ℚ → ℚ) (s : AvatarState) (t lastBlink now : ℚ) :
    AvatarState × List Msg × ℚ × ℚ :=
  let talkStep : AvatarState × List Msg :=
    if s.is_talking then
      let mouthValue := (sinQ (t * 15) + 1) / 2 * (4/5)
      ({ s with mouth_open := mouthValue }, [("MouthOpen", mouthValue)])
    else (s, [])
  let blinkStep : List Msg × ℚ :=
    if now - lastBlink > 3 then (blinkMsgs, now) else ([], lastBlink)
  let idleBrow := sinQ (t * (1/2)) * (1/10)
  let s2 := { talkStep.1 with brow_raise := idleBrow }
  (s2, talkStep.2 ++ blinkStep.1 ++ [("BrowInnerUp", idleBrow)],
    t + 1/60, blinkStep.2)

/-- Last value emitted for a parameter in a message trace (what the external
avatar displays for that parameter after the trace). -/
def lastVal : List Msg → String → Option ℚ
  | [], _ => none
  | m :: rest, p =>
    match lastVal rest p with
    | some v => some v
    | none => if m.1 = p then some m.2 else none

/-- The neutral value `reset` sends for each parameter it drives. -/
def neutralVal (p : String) : ℚ :=
  if p = "EyeLookUpLeft" ∨ p = "EyeLookDownLeft" then 1/2 else 0

/-- Worker for `str.split()`: accumulate the current word (reversed),
closing it at whitespace; empty pieces are discarded. -/
def splitWsAux : List Char → List Char → List String
  | [], cur => if cur = [] then [] else [String.mk cur.reverse]
  | c :: rest, cur =>
    if regexWs c then
      if cur = [] then splitWsAux rest []
      else String.mk cur.reverse :: splitWsAux rest []
    else splitWsAux rest (c :: cur)

/-- Python `str.split()` with no argument: split on whitespace runs,
discarding empty pieces. -/
def pyWords (s : String) : List String :=
  splitWsAux s.data []

/-! ## VM controller (`vm_controller.py`, `VMController`)

Input injection over QMP.  One `_qmp_client.execute(...)` call is one
`QmpCmd`; a command's input events preserve their in-payload order. -/

/-- One element of an `input-send-event` payload. -/
inductive InputEvent where
  | absEv (axis : String) (value : Int)
  | btnEv (down : Bool) (button : String)
  | keyEv (down : Bool) (qcode : String)
deriving Repr, DecidableEq

/-- One QMP `execute` call issued by the controller. -/
inductive QmpCmd where
  | inputSendEvent (events : List InputEvent)
  | screendump (filename : String)
deriving Repr, DecidableEq

/-- One synchronous vncdotool call (the fallback transport). -/
inductive VncOp where
  | vClick (x y : ℚ)
  | vMove (x y : ℚ)
  | vKeyPress (text : String)
  | vCapture
deriving Repr, DecidableEq

/-- Which client `connect` established (`_qmp_client`, `_vnc_client`, or
neither — in the last case the input methods are silent no-ops). -/
inductive Transport where
  | qmpT | vncT | noneT
deriving Repr, DecidableEq

/-- Python `int(q)`: truncation toward zero. -/
def pyInt (q : ℚ) : Int := if 0 ≤ q then ⌊q⌋ else -⌊-q⌋

/-- The normalized X coordinate computed by `VMController.click`:
`int((x / vm_width) * 32767)`. -/
def clickQx (x : ℚ) (w : ℕ) : Int := pyInt (x / (w : ℚ) * 32767)

/-- The QMP commands issued by `VMController.click x y button` (QMP branch):
absolute move plus button down in one payload, button up in a second. -/
def clickCmds (x y : ℚ) (w h : ℕ) (button : String) : List QmpCmd :=
  [QmpCmd.inputSendEvent
    [InputEvent.absEv "x" (clickQx x w), InputEvent.absEv "y" (clickQx y h),
     InputEvent.btnEv true button],
   QmpCmd.inputSendEvent [InputEvent.btnEv false button]]

/-- The `key_map` dictionary of `_send_key`. -/
def keyMap : List (Char × String) :=
  [('a', "a"), ('b', "b"), ('c', "c"), ('d', "d"), ('e', "e"), ('f', "f"),
   ('g', "g"), ('h', "h"), ('i', "i"), ('j', "j"), ('k', "k"), ('l', "l"),
   ('m', "m"), ('n', "n"), ('o', "o"), ('p', "p"), ('q', "q"), ('r', "r"),
   ('s', "s"), ('t', "t"), ('u', "u"), ('v', "v"), ('w', "w"), ('x', "x"),
   ('y', "y"), ('z', "z"),
   ('0', "0"), ('1', "1"), ('2', "2"), ('3', "3"), ('4', "4"), ('5', "5"),
   ('6', "6"), ('7', "7"), ('8', "8"), ('9', "9"),
   (' ', "spc"), (Char.ofNat 10, "ret"), (Char.ofNat 9, "tab"),
   ('!', "shift-1"), ('@', "shift-2"), ('#', "shift-3"), ('$', "shift-4"),
   ('%', "shift-5"), ('^', "shift-6"), ('&', "shift-7"), ('*', "shift-8"),
   ('(', "shift-9"), (')', "shift-0"),
   ('-', "minus"), ('_', "shift-minus"), ('=', "equal"), ('+', "shift-equal"),
   ('[', "bracket_left"), (']', "bracket_right"),
   (obr, "shift-bracket_left"), (cbr, "shift-bracket_right"),
   ('\\', "backslash"), ('|', "shift-backslash"),
   (';', "semicolon"), (':', "shift-semicolon"),
   (Char.ofNat 39, "apostrophe"), (qc, "shift-apostrophe"),
   (',', "comma"), ('<', "shift-comma"), ('.', "dot"), ('>', "shift-dot"),
   ('/', "slash"), ('?', "shift-slash")]

/-- `key_map.get(char.lower(), char)`. -/
def keyOf (c : Char) : String :=
  (keyMap.lookup c.toLower).getD (String.singleton c)

/-- A QMP command carrying a single key press or release. -/
def keyCmd (down : Bool) (qcode : String) : QmpCmd :=
  QmpCmd.inputSendEvent [InputEvent.keyEv down qcode]

/-- The QMP commands issued by `VMController._send_key char`: a plain key is
pressed then released; a `a-b` modifier combination presses each part in
order and releases them in reverse order. -/
def sendKeyCmds (c : Char) : List QmpCmd :=
  let key := keyOf c
  if key.contains '-' then
    let parts := key.splitOn "-"
    parts.map (keyCmd true) ++ parts.reverse.map (keyCmd false)
  else
    [keyCmd true key, keyCmd false key]

/-- Worker for `type_text`: `_send_key` per character, in order. -/
def typeTextCmdsAux : List Char → List QmpCmd
  | [] => []
  | c :: rest => sendKeyCmds c ++ typeTextCmdsAux rest

/-- The QMP commands issued by `VMController.type_text text` (QMP branch). -/
def typeTextCmds (text : String) : List QmpCmd :=
  typeTextCmdsAux text.data

/-- The QMP commands issued by `VMController.press_key key` (QMP branch). -/
def pressKeyCmds (key : String) : List QmpCmd :=
  [keyCmd true key, keyCmd false key]

/-- The key press/release events occurring in a list of QMP commands, in
emission order. -/
def keyEventsOf : List QmpCmd → List (Bool × String)
  | [] => []
  | QmpCmd.inputSendEvent evs :: rest =>
    evs.filterMap (fun e =>
      match e with
      | InputEvent.keyEv d q => some (d, q)
      | _ => none) ++ keyEventsOf rest
  | QmpCmd.screendump _ :: rest => keyEventsOf rest

/-- The multiset of keys held down after processing a key event sequence:
a press pushes its qcode, a release removes one occurrence. -/
def foldHeld (held : List String) : List (Bool × String) → List String
  | [] => held
  | (true, k) :: rest => foldHeld (k :: held) rest
  | (false, k) :: rest => foldHeld (held.erase k) rest

/-! ## Orchestrator (`orchestrator.py`)

`_send_message` and `_execute_tool_calls` are modelled as event-trace
producers.  The `DeviceEnv` record holds the external collaborators'
behaviour (whether a QMP/VNC call raises, what the memory store and the image
analysis return) and the VM display configuration.

Modelling notes, recorded for the few places where total functions force a
choice:
* An external call that raises is still recorded as an event (the attempt
  was observable) followed by the error.
* The tool arguments `text`, `key`, `button` and `expression` are taken as
  strings; a non-string value would travel into the external call and fail
  there, which the oracle can model as a raise.
* `memory.add_to_working` and the working-message assembly at the start of
  `_send_message` touch only internal memory state and are not traced. -/

/-- An observable event of the orchestrator. -/
inductive Event where
  | qmp (c : QmpCmd)
  | vnc (o : VncOp)
  | vmc (p : String) (v : ℚ)
  | avStart
  | avStop
  | exprSet (e : AvatarExpression)
  | logInfo (s : String)
  | logFail (s : String)
  | memRem (content : Json) (importance : Json)
  | memRecallEv (query : Json)
deriving Repr

/-- External collaborators and configuration visible to the dispatch loop. -/
structure DeviceEnv where
  transport : Transport
  vmW : ℕ
  vmH : ℕ
  qmpExec : QmpCmd → Option String
  vncExec : VncOp → Option String
  screenshotFile : Bool
  analyze : Except String String
  memRemember : Json → Json → Option String
  memRecall : Json → Except String (List String)

/-- Run a list of QMP `execute` calls in order, stopping at the first one
whose oracle raises; the raising call is still recorded. -/
def runCmds (env : DeviceEnv) : List QmpCmd → List Event × Option String
  | [] => ([], none)
  | c :: rest =>
    match env.qmpExec c with
    | some err => ([Event.qmp c], some err)
    | none =>
      let r := runCmds env rest
      (Event.qmp c :: r.1, r.2)

/-- Events of one word of `Inochi2dController.speak_text`: a mouth pulse
proportional to word length (capped at 1), a near-close, and a blink on
every fifth word index. -/
def wordEvents (i : ℕ) (w : String) : List Event :=
  [Event.vmc "MouthOpen" (min (3/10 + ((w.length : ℚ) / 20) * (1/2)) 1),
   Event.vmc "MouthOpen" (1/10)]
  ++ (if i % 5 = 0 then blinkMsgs.map (fun m => Event.vmc m.1 m.2) else [])

/-- Word loop of `speak_text`, carrying the enumeration index. -/
def speakWordsAux : ℕ → List String → List Event
  | _, [] => []
  | i, w :: rest => wordEvents i w ++ speakWordsAux (i + 1) rest

/-- Events of `Inochi2dController.speak_text text`: start talking, the
per-word schedule, stop talking (which emits `MouthOpen = 0`). -/
def speakEvents (text : String) : List Event :=
  Event.avStart :: speakWordsAux 0 (pyWords text)
    ++ [Event.avStop, Event.vmc "MouthOpen" 0]

/-- Events of `Orchestrator._analyze_screenshot`: every error is caught
inside, so this never raises. -/
def analyzeEvents (env : DeviceEnv) : List Event :=
  match env.analyze with
  | Except.error e => [Event.logInfo ("Screenshot analysis failed: " ++ e)]
  | Except.ok d =>
    [Event.logInfo ("Screen: " ++ d),
     Event.memRem (Json.jstr ("Saw: " ++ d)) (Json.jnum (2/5))]

/-- Events of `VMController.get_screenshot` together with whether a
screenshot came back (`None` on any caught error or missing file). -/
def screenshotRun (env : DeviceEnv) : List Event × Bool :=
  match env.transport with
  | Transport.qmpT =>
    match env.qmpExec (QmpCmd.screendump "/tmp/vm_screenshot.png") with
    | some _ => ([Event.qmp (QmpCmd.screendump "/tmp/vm_screenshot.png")], false)
    | none => ([Event.qmp (QmpCmd.screendump "/tmp/vm_screenshot.png")],
               env.screenshotFile)
  | Transport.vncT =>
    match env.vncExec VncOp.vCapture with
    | some _ => ([Event.vnc VncOp.vCapture], false)
    | none => ([Event.vnc VncOp.vCapture], true)
  | Transport.noneT => ([], false)

/-- A VM input operation routed by transport: the QMP command list on the
QMP branch, a single VNC call on the VNC branch, a silent no-op with no
client. -/
def vmOp (env : DeviceEnv) (cmds : List QmpCmd) (v : VncOp) :
    List Event × Option String :=
  match env.transport with
  | Transport.qmpT => runCmds env cmds
  | Transport.vncT =>
    match env.vncExec v with
    | some err => ([Event.vnc v], some err)
    | none => ([Event.vnc v], none)
  | Transport.noneT => ([], none)

/-- Argument lookup that must be a string (`args[k]` then used as text);
`none` models the raise on a missing key or on a non-string value failing in
the consumer. -/
def argStr (args : Json) (k : String) : Option String :=
  match jget args k with
  | some (Json.jstr s) => some s
  | _ => none

/-- The body of the `try` block of `_execute_tool_calls` for one call:
the emitted events and, when the device operation raises, the error. -/
def attempt (env : DeviceEnv) (c : ToolCall) : List Event × Option String :=
  if c.name = "vm_click" then
    match jget c.args "x" with
    | none => ([], some "KeyError: x")
    | some xv =>
      match xv.asNum with
      | none => ([], some "TypeError: x")
      | some x =>
        match (jgetD c.args "y" (Json.jnum 0)).asNum with
        | none => ([], some "TypeError: y")
        | some y =>
          match jget c.args "button" with
          | some (Json.jstr b) =>
            vmOp env (clickCmds x y env.vmW env.vmH b) (VncOp.vClick x y)
          | none =>
            vmOp env (clickCmds x y env.vmW env.vmH "left") (VncOp.vClick x y)
          | some _ => ([], some "TypeError: button")
  else if c.name = "vm_type" then
    match argStr c.args "text" with
    | none => ([], some "KeyError: text")
    | some t => vmOp env (typeTextCmds t) (VncOp.vKeyPress t)
  else if c.name = "vm_screenshot" then
    let r := screenshotRun env
    (r.1 ++ (if r.2 then analyzeEvents env else []), none)
  else if c.name = "vm_press_key" then
    match argStr c.args "key" with
    | none => ([], some "KeyError: key")
    | some k => vmOp env (pressKeyCmds k) (VncOp.vKeyPress k)
  else if c.name = "avatar_expression" then
    match argStr c.args "expression" with
    | none => ([], some "KeyError: expression")
    | some s =>
      match parseExpression s with
      | none => ([], some "ValueError")
      | some e => ([Event.exprSet e], none)
  else if c.name = "avatar_speak" then
    match argStr c.args "text" with
    | none => ([], some "KeyError: text")
    | some t => (speakEvents t, none)
  else if c.name = "memory_store" then
    match jget c.args "content" with
    | none => ([], some "KeyError: content")
    | some content =>
      let imp := jgetD c.args "importance" (Json.jnum (1/2))
      ([Event.memRem content imp], env.memRemember content imp)
  else if c.name = "memory_recall" then
    match jget c.args "query" with
    | none => ([], some "KeyError: query")
    | some q =>
      match env.memRecall q with
      | Except.error e => ([Event.memRecallEv q], some e)
      | Except.ok ms =>
        (Event.memRecallEv q :: ms.map (fun m => Event.logInfo ("Memory: " ++ m)),
         none)
  else ([], none)

/-- One iteration of the dispatch loop: run the `try` body; a raise is
caught, reported, and answered with the SAD expression. -/
def execOne (env : DeviceEnv) (c : ToolCall) : List Event :=
  match attempt env c with
  | (evs, none) => evs
  | (evs, some err) =>
    evs ++ [Event.logFail ("Tool call failed " ++ c.name ++ ": " ++ err),
            Event.exprSet AvatarExpression.SAD]

/-- `Orchestrator._execute_tool_calls`: the calls of one turn, sequentially. -/
def executeToolCalls (env : DeviceEnv) : List ToolCall → List Event
  | [] => []
  | c :: rest => execOne env c ++ executeToolCalls env rest

/-- One chunk yielded by `OmniAgent.chat` (`audio` is irrelevant to every
claim and omitted; a present `error` is assumed to be a nonempty string, as
produced by `str(e)` on a raised exception). -/
structure Chunk where
  text : String := ""
  done : Bool := false
  error : Option String := none

/-- The final response buffer of a turn: the fold of `response_text += chunk["text"]`. -/
def fullText : String → List Chunk → String
  | buf, [] => buf
  | buf, c :: rest => fullText (buf ++ c.text) rest

/-- Whether the buffer contains `"<tool_call>"` (the substring check that
drives the THINKING expression while streaming). -/
def containsTag (s : String) : Bool :=
  (indexOfSeq openTag s.data).isSome

/-- Result of one `_send_message` turn: the event trace after the initial
`start_talking`, and the extracted tool calls when a done chunk was
reached. -/
structure TurnOut where
  events : List Event
  calls : Option (List ToolCall)

/-- The chunk loop of `_send_message`: an error chunk reports, stops talking,
shows SAD and breaks; otherwise the buffer grows, THINKING shows whenever
the buffer contains the open tag, and the done chunk stops talking, then
either dispatches the extracted calls or runs the fallback speech path, and
finally records the response in memory. -/
def sendLoop (env : DeviceEnv) : String → List Chunk → TurnOut
  | _, [] => ⟨[], none⟩
  | buf, c :: rest =>
    match c.error with
    | some e =>
      ⟨[Event.logInfo ("AI Error: " ++ e), Event.avStop,
        Event.exprSet AvatarExpression.SAD], none⟩
    | none =>
      let buf2 := buf ++ c.text
      let think : List Event :=
        if containsTag buf2 then [Event.exprSet AvatarExpression.THINKING]
        else []
      if c.done then
        let tcs := extractToolCalls buf2
        let mid : List Event :=
          if tcs.isEmpty then
            Event.exprSet AvatarExpression.HAPPY :: speakEvents buf2
          else executeToolCalls env tcs
        ⟨think ++ Event.avStop :: mid
          ++ [Event.memRem (Json.jstr buf2) (Json.jnum (1/2))], some tcs⟩
      else
        let r := sendLoop env buf2 rest
        ⟨think ++ r.events, r.calls⟩

/-- `Orchestrator._send_message`: `start_talking`, then the chunk loop. -/
def sendMessageRun (env : DeviceEnv) (chunks : List Chunk) : TurnOut :=
  let r := sendLoop env "" chunks
  ⟨Event.avStart :: r.events, r.calls⟩

/-! ## Trace observables used by the claims -/

/-- The talking flag after folding a trace over `start_talking` /
`stop_talking` events. -/
def talkingAfter (b : Bool) : List Event → Bool
  | [] => b
  | Event.avStart :: rest => talkingAfter true rest
  | Event.avStop :: rest => talkingAfter false rest
  | _ :: rest => talkingAfter b rest

/-- Number of `start_talking` events in a trace. -/
def countStart : List Event → ℕ
  | [] => 0
  | Event.avStart :: rest => countStart rest + 1
  | _ :: rest => countStart rest

/-- Number of `stop_talking` events in a trace. -/
def countStop : List Event → ℕ
  | [] => 0
  | Event.avStop :: rest => countStop rest + 1
  | _ :: rest => countStop rest

/-- Number of true-to-false transitions of the talking flag along a trace
started with flag `b`. -/
def countFalls (b : Bool) : List Event → ℕ
  | [] => 0
  | Event.avStart :: rest => countFalls true rest
  | Event.avStop :: rest => (if b then 1 else 0) + countFalls false rest
  | _ :: rest => countFalls b rest

/-- Whether a trace touches the talking flag at all. -/
def talkFree (evs : List Event) : Bool :=
  evs.all (fun e =>
    match e with
    | Event.avStart => false
    | Event.avStop => false
    | _ => true)

/-- Whether an event is the per-call failure report of the dispatch loop. -/
def isFailLog : Event → Bool
  | Event.logFail _ => true
  | _ => false

/-- The known tool names of the dispatch loop. -/
def knownNames : List String :=
  ["vm_click", "vm_type", "vm_screenshot", "vm_press_key",
   "avatar_expression", "avatar_speak", "memory_store", "memory_recall"]

/-- A concrete healthy environment (default 1920x1080 display, QMP
connected, no external call raises), used to evaluate theorems at concrete
inputs. -/
def okEnv : DeviceEnv where
  transport := Transport.qmpT
  vmW := 1920
  vmH := 1080
  qmpExec := fun _ => none
  vncExec := fun _ => none
  screenshotFile := true
  analyze := Except.ok "a desktop"
  memRemember := fun _ _ => none
  memRecall := fun _ => Except.ok []

/-- A concrete environment whose QMP endpoint raises on every call. -/
def qmpFailEnv : DeviceEnv :=
  { okEnv with qmpExec := fun _ => some "device error" }

/-- The quantized X coordinate as the spec's words describe it
(`round(x/vm_width*32767)`); a refinement comparison target for
`clickQx`, not a source translation. -/
def specQx (x : ℚ) (w : ℕ) : Int := round (x / (w : ℚ) * 32767)

/-! ## Helper lemmas -/

theorem keyEventsOf_append (a b : List QmpCmd) :
    keyEventsOf (a ++ b) = keyEventsOf a ++ keyEventsOf b := by
  induction a with
  | nil => rfl
  | cons c rest ih =>
    cases c with
    | inputSendEvent evs => simp [keyEventsOf, ih]
    | screendump f => simp [keyEventsOf, ih]

theorem keyEventsOf_map_keyCmd (d : Bool) (ps : List String) :
    keyEventsOf (ps.map (keyCmd d)) = ps.map (fun k => (d, k)) := by
  induction ps with
  | nil => rfl
  | cons p rest ih => simp [keyCmd, keyEventsOf, ih, List.filterMap]

theorem foldHeld_append (a b : List (Bool × String)) (h : List String) :
    foldHeld h (a ++ b) = foldHeld (foldHeld h a) b := by
  induction a generalizing h with
  | nil => rfl
  | cons e rest ih =>
    rcases e with ⟨d, k⟩
    cases d <;> simp [foldHeld, ih]

theorem foldHeld_balanced (ps : List String) (h : List String) :
    foldHeld h (ps.map (fun k => (true, k))
      ++ ps.reverse.map (fun k => (false, k))) = h := by
  induction ps generalizing h with
  | nil => rfl
  | cons p rest ih =>
    have shape :
        (p :: rest).map (fun k => (true, k))
          ++ (p :: rest).reverse.map (fun k => (false, k))
        = (true, p) :: ((rest.map (fun k => (true, k))
            ++ rest.reverse.map (fun k => (false, k))) ++ [(false, p)]) := by
      simp
    rw [shape]
    show foldHeld (p :: h)
      ((rest.map (fun k => (true, k))
        ++ rest.reverse.map (fun k => (false, k))) ++ [(false, p)]) = h
    rw [foldHeld_append, ih]
    simp [foldHeld]

theorem sendKey_struct (c : Char) :
    ∃ parts : List String,
      keyEventsOf (sendKeyCmds c)
        = parts.map (fun k => (true, k))
          ++ parts.reverse.map (fun k => (false, k)) := by
  unfold sendKeyCmds
  by_cases hd : (keyOf c).contains '-'
  · refine ⟨(keyOf c).splitOn "-", ?_⟩
    simp only [hd, if_true]
    rw [keyEventsOf_append, keyEventsOf_map_keyCmd, keyEventsOf_map_keyCmd]
  · refine ⟨[keyOf c], ?_⟩
    simp [hd, keyCmd, keyEventsOf, List.filterMap]

theorem sendKey_balanced (c : Char) (h : List String) :
    foldHeld h (keyEventsOf (sendKeyCmds c)) = h := by
  obtain ⟨parts, hp⟩ := sendKey_struct c
  rw [hp, foldHeld_balanced]

theorem typeText_balanced_aux (cs : List Char) :
    foldHeld [] (keyEventsOf (typeTextCmdsAux cs)) = [] := by
  induction cs with
  | nil => rfl
  | cons c rest ih =>
    simp only [typeTextCmdsAux, keyEventsOf_append, foldHeld_append,
      sendKey_balanced, ih]

/-! ## Claims -/

/-- C10.  Every key-down event emitted by `_send_key` (hence by `type_text`)
and by `press_key` is matched by a key-up for the same qcode within the same
call; modifier combinations release in reverse order of the presses (the
event list is exactly presses of the parts in order followed by releases in
reverse order); and after a call completes normally no key is left held. -/
theorem keys_paired :
    (∀ c : Char, ∃ parts : List String,
      keyEventsOf (sendKeyCmds c)
        = parts.map (fun k => (true, k))
          ++ parts.reverse.map (fun k => (false, k))
      ∧ foldHeld [] (keyEventsOf (sendKeyCmds c)) = [])
    ∧ (∀ text : String, foldHeld [] (keyEventsOf (typeTextCmds text)) = [])
    ∧ (∀ key : String,
        keyEventsOf (pressKeyCmds key) = [(true, key), (false, key)]) := by
  refine ⟨fun c => ?_, fun text => ?_, fun key => ?_⟩
  · obtain ⟨parts, hp⟩ := sendKey_struct c
    exact ⟨parts, hp, sendKey_balanced c []⟩
  · exact typeText_balanced_aux text.data
  · rfl

theorem lastVal_append_of_some (l1 l2 : List Msg) (p : String) (v : ℚ)
    (h : lastVal l2 p = some v) : lastVal (l1 ++ l2) p = some v := by
  induction l1 with
  | nil => simpa using h
  | cons m rest ih => simp [lastVal, ih]

theorem lastVal_append_of_none (l1 l2 : List Msg) (p : String)
    (h : lastVal l2 p = none) : lastVal (l1 ++ l2) p = lastVal l1 p := by
  induction l1 with
  | nil => simpa using h
  | cons m rest ih => simp [lastVal, ih]

/-- C8 counterexample.  The claim says `stop` (cancel, await, then `reset`)
drives every parameter the controller ever emits back to neutral, naming
`MouthSmileRight` among them.  After a `set_mouth_smile 1.0` the `reset` run
by `stop` leaves `MouthSmileRight` at `1`, not at its neutral `0`: `reset`
sends only `MouthOpen`, the two `EyeBlink`s, `BrowInnerUp`, `MouthSmileLeft`
and the two left-eye gaze parameters. -/
theorem stop_not_neutral_cex :
    lastVal (setMouthSmileMsgs 1 ++ resetMsgs) "MouthSmileRight" = some 1
    ∧ neutralVal "MouthSmileRight" = 0
    ∧ ¬ (lastVal (setMouthSmileMsgs 1 ++ resetMsgs) "MouthSmileRight"
          = some (neutralVal "MouthSmileRight")) := by
  refine ⟨rfl, rfl, ?_⟩
  intro h
  rw [show lastVal (setMouthSmileMsgs 1 ++ resetMsgs) "MouthSmileRight"
      = some 1 from rfl] at h
  rw [show neutralVal "MouthSmileRight" = 0 from rfl] at h
  exact one_ne_zero (Option.some.injEq .. ▸ h)

/-- C8 amended.  `stop` (which runs `reset` after cancelling the animation
task) drives exactly the seven parameters `reset` emits — `MouthOpen`,
`EyeBlinkLeft`, `EyeBlinkRight`, `BrowInnerUp`, `MouthSmileLeft`,
`EyeLookUpLeft`, `EyeLookDownLeft` — to their neutral values, for every
prior message history; the parameters `MouthSmileRight`, `EyeLookUpRight`,
`EyeLookDownRight`, `JawOpen` and `HeadPosX`, which other controller
methods emit, are not reset and keep their prior last value. -/
theorem stop_resets_seven :
    (∀ (prior : List Msg) (p : String), p ∈ resetMsgs.map Prod.fst →
      lastVal (prior ++ resetMsgs) p = some (neutralVal p))
    ∧ (∀ (prior : List Msg) (q : String),
        q ∈ ["MouthSmileRight", "EyeLookUpRight", "EyeLookDownRight",
             "JawOpen", "HeadPosX"] →
      lastVal (prior ++ resetMsgs) q = lastVal prior q) := by
  constructor
  · intro prior p hp
    simp only [resetMsgs, List.map, List.mem_cons, List.not_mem_nil,
      or_false] at hp
    rcases hp with h | h | h | h | h | h | h <;> subst h <;>
      exact lastVal_append_of_some _ _ _ _ rfl
  · intro prior q hq
    simp only [List.mem_cons, List.not_mem_nil, or_false] at hq
    rcases hq with h | h | h | h | h <;> subst h <;>
      exact lastVal_append_of_none _ _ _ rfl

/-- C8 witness: the first part at `MouthOpen` over an empty history, the
second at `JawOpen`. -/
theorem stop_resets_seven_witness :
    lastVal ([] ++ resetMsgs) "MouthOpen" = some (neutralVal "MouthOpen")
    ∧ lastVal ([] ++ resetMsgs) "JawOpen" = lastVal [] "JawOpen" :=
  ⟨stop_resets_seven.1 [] "MouthOpen" (by simp [resetMsgs]),
   stop_resets_seven.2 [] "JawOpen" (by simp)⟩

/-- C7 counterexample.  The claim reads the spec's "mouth-openness
parameter" as the state field `state.mouth_open` and asks that it be `0`
within one animation tick after `stop_talking`.  `stop_talking` emits
`MouthOpen = 0` but leaves the field untouched, and a tick with
`is_talking = false` never writes it: from a talking state with
`mouth_open = 1/2`, after `stop_talking` and one tick the field is still
`1/2`. -/
theorem mouth_field_cex :
    (animationTick (fun _ => 0)
        (stopTalkingRun { mouth_open := 1/2, is_talking := true }).1
        0 0 0).1.mouth_open = 1/2
    ∧ ¬ ((animationTick (fun _ => 0)
        (stopTalkingRun { mouth_open := 1/2, is_talking := true }).1
        0 0 0).1.mouth_open = 0) := by
  constructor
  · rfl
  · intro h
    have h2 : (1 : ℚ)/2 = 0 := by
      rw [show (animationTick (fun _ => 0)
        (stopTalkingRun { mouth_open := 1/2, is_talking := true }).1
        0 0 0).1.mouth_open = 1/2 from rfl] at h
      exact h
    norm_num at h2

/-- C7 amended.  `stop_talking` immediately (within zero ticks) emits
`MouthOpen = 0` to the avatar channel and clears the talking flag; while
the flag is false, an animation tick emits no `MouthOpen` message and
leaves the `mouth_open` state field unchanged — so the externally visible
mouth openness is `0` from `stop_talking` onward, but the state field keeps
its prior value. -/
theorem stop_talking_mouth (s : AvatarState) (sinQ : ℚ → ℚ)
    (t lastBlink now : ℚ) (hnt : s.is_talking = false) :
    (stopTalkingRun s).2 = [("MouthOpen", 0)]
    ∧ (stopTalkingRun s).1.is_talking = false
    ∧ (animationTick sinQ s t lastBlink now).1.mouth_open = s.mouth_open
    ∧ ∀ m ∈ (animationTick sinQ s t lastBlink now).2.1, m.1 ≠ "MouthOpen" := by
  refine ⟨rfl, rfl, ?_, ?_⟩
  · simp [animationTick, hnt]
  · intro m hm
    simp only [animationTick, hnt, if_false, Bool.false_eq_true,
      List.nil_append] at hm
    by_cases hb : now - lastBlink > 3
    · simp only [hb, if_true] at hm
      rcases List.mem_append.1 hm with h | h
      · simp only [blinkMsgs, List.mem_cons, List.not_mem_nil, or_false] at h
        rcases h with h | h | h | h <;> subst h <;> simp
      · simp only [List.mem_singleton] at h
        subst h; simp
    · simp only [hb, if_false] at hm
      simp only [List.nil_append, List.mem_singleton] at hm
      subst hm; simp

/-- C7 witness: a neutral state, the zero waveform and time zero. -/
theorem stop_talking_mouth_witness :
    (stopTalkingRun {}).2 = [("MouthOpen", 0)]
    ∧ (stopTalkingRun {}).1.is_talking = false
    ∧ (animationTick (fun _ => 0) {} 0 0 0).1.mouth_open
        = AvatarState.mouth_open {}
    ∧ ∀ m ∈ (animationTick (fun _ => 0) {} 0 0 0).2.1, m.1 ≠ "MouthOpen" :=
  stop_talking_mouth {} (fun _ => 0) 0 0 0 rfl

theorem clickQx_eq_trunc_div (x w : ℕ) (hw : 0 < w) :
    clickQx (x : ℚ) w = ((x * 32767 / w : ℕ) : ℤ) := by
  have hq : (0 : ℚ) ≤ (x : ℚ) / (w : ℚ) * 32767 := by positivity
  have hrw : (x : ℚ) / (w : ℚ) * 32767 = ((x * 32767 : ℕ) : ℚ) / ((w : ℕ) : ℚ) := by
    push_cast
    ring
  rw [clickQx, pyInt, if_pos hq, hrw, Rat.floor_natCast_div_natCast]
  exact (Int.natCast_div _ _).symm

theorem natDiv_le_32767 (x w : ℕ) (hw : 0 < w) (hx : x < w) :
    x * 32767 / w ≤ 32767 := by
  have h1 : x * 32767 < 32768 * w := by nlinarith
  have h2 : x * 32767 / w < 32768 := (Nat.div_lt_iff_lt_mul hw).2 h1
  omega

/-- C3 counterexample.  The claim (and the spec scenario) says the click
carries `qx = round(x/vm_width*32767)`.  The code computes
`int((x / vm_width) * 32767)`, which truncates: at `x = 10` with the default
`vm_width = 1920` the code sends `170` while the claimed rounding gives
`171`. -/
theorem click_round_cex :
    clickQx 10 1920 = 170 ∧ specQx 10 1920 = 171
    ∧ clickQx 10 1920 ≠ specQx 10 1920 := by
  refine ⟨?_, ?_, ?_⟩
  · norm_num [clickQx, pyInt]
  · norm_num [specQx, round_eq]
  · norm_num [clickQx, pyInt, specQx, round_eq]

/-- C3 amended.  For a `vm_click` ToolCall with integer arguments
`x ∈ [0, vm_width)` and `y ∈ [0, vm_height)` dispatched over a healthy QMP
transport, the click sequence carries the truncated normalized coordinates
`qx = int(x/vm_width*32767) = x*32767/vm_width` (and likewise `qy`), each
lying in `0..32767` independent of the display resolution, followed by the
button release. -/
theorem click_normalized (env : DeviceEnv) (x y : ℕ)
    (htr : env.transport = Transport.qmpT)
    (hok : ∀ c, env.qmpExec c = none)
    (hw : 0 < env.vmW) (hh : 0 < env.vmH)
    (hx : x < env.vmW) (hy : y < env.vmH) :
    execOne env ⟨"vm_click", Json.jobj [("x", Json.jnum x), ("y", Json.jnum y)]⟩
      = [Event.qmp (QmpCmd.inputSendEvent
          [InputEvent.absEv "x" ((x * 32767 / env.vmW : ℕ) : ℤ),
           InputEvent.absEv "y" ((y * 32767 / env.vmH : ℕ) : ℤ),
           InputEvent.btnEv true "left"]),
         Event.qmp (QmpCmd.inputSendEvent [InputEvent.btnEv false "left"])]
    ∧ x * 32767 / env.vmW ≤ 32767 ∧ y * 32767 / env.vmH ≤ 32767 := by
  refine ⟨?_, natDiv_le_32767 x env.vmW hw hx, natDiv_le_32767 y env.vmH hh hy⟩
  rw [show ((x * 32767 / env.vmW : ℕ) : ℤ) = clickQx (x : ℚ) env.vmW from
      (clickQx_eq_trunc_div x env.vmW hw).symm,
    show ((y * 32767 / env.vmH : ℕ) : ℤ) = clickQx (y : ℚ) env.vmH from
      (clickQx_eq_trunc_div y env.vmH hh).symm]
  simp [execOne, attempt, jget, List.lookup, jgetD, Json.asNum, vmOp, htr,
    runCmds, hok, clickCmds]

/-- C3 witness: the spec scenario `x = 10`, `y = 20` on the default
1920x1080 display over the healthy environment. -/
theorem click_normalized_witness :
    execOne okEnv ⟨"vm_click",
        Json.jobj [("x", Json.jnum 10), ("y", Json.jnum 20)]⟩
      = [Event.qmp (QmpCmd.inputSendEvent
          [InputEvent.absEv "x" ((10 * 32767 / okEnv.vmW : ℕ) : ℤ),
           InputEvent.absEv "y" ((20 * 32767 / okEnv.vmH : ℕ) : ℤ),
           InputEvent.btnEv true "left"]),
         Event.qmp (QmpCmd.inputSendEvent [InputEvent.btnEv false "left"])]
    ∧ 10 * 32767 / okEnv.vmW ≤ 32767 ∧ 20 * 32767 / okEnv.vmH ≤ 32767 :=
  click_normalized okEnv 10 20 rfl (fun _ => rfl) (by norm_num [okEnv])
    (by norm_num [okEnv]) (by norm_num [okEnv]) (by norm_num [okEnv])

/-- C5 counterexample.  The claim says a span with an extractable name whose
matched args text fails `json.loads` still yields a ToolCall with empty
arguments.  In the code `json.loads` runs before the append, so the raised
exception skips the append and the whole span is discarded: on
`<tool_call>{"name": "vm_click", "args": {bad}}</tool_call>` the parser
returns no ToolCall at all instead of the claimed
`⟨"vm_click", empty args⟩`. -/
theorem args_unparseable_cex :
    extractToolCalls
        "<tool_call>\x7b\"name\": \"vm_click\", \"args\": \x7bbad\x7d\x7d</tool_call>"
      = []
    ∧ extractToolCalls
        "<tool_call>\x7b\"name\": \"vm_click\", \"args\": \x7bbad\x7d\x7d</tool_call>"
      ≠ [⟨"vm_click", Json.jobj []⟩] := by
  refine ⟨rfl, ?_⟩
  intro h
  rw [show extractToolCalls
      "<tool_call>\x7b\"name\": \"vm_click\", \"args\": \x7bbad\x7d\x7d</tool_call>"
      = [] from rfl] at h
  simp at h

/-- C5 amended.  For a span with an extractable name: if the args regex
matches but `json.loads` fails on the matched text, the whole span is
discarded (with a logged parse failure); a ToolCall with that name and
empty arguments is produced only when the args regex does not match at
all. -/
theorem span_soft_failure (m : List Char) (nm : String)
    (hn : searchFrom matchNameAt m = some nm) :
    (∀ a, searchFrom matchArgsAt m = some a → jsonLoads a = none →
      parseSpan m = none)
    ∧ (searchFrom matchArgsAt m = none →
        parseSpan m = some ⟨nm, Json.jobj []⟩) := by
  constructor
  · intro a ha hj
    simp [parseSpan, hn, ha, hj]
  · intro ha
    simp [parseSpan, hn, ha]

/-- C5 witness: the interior `{"name": "vm_click", "args": {bad}}` has an
extractable name, its args match `\x7bbad\x7d` fails to parse, and the span
is dropped. -/
theorem span_soft_failure_witness :
    parseSpan "\x7b\"name\": \"vm_click\", \"args\": \x7bbad\x7d\x7d".data
      = none :=
  (span_soft_failure
      "\x7b\"name\": \"vm_click\", \"args\": \x7bbad\x7d\x7d".data
      "vm_click" rfl).1 "\x7bbad\x7d".data rfl rfl

/-- C9 counterexample.  The claim says unknown call names are reported
(non-fatally).  The dispatch `elif` chain has no final `else`: an unknown
name produces no event at all — nothing is reported. -/
theorem unknown_report_cex :
    executeToolCalls okEnv [⟨"bogus", Json.jobj []⟩] = []
    ∧ ∀ e ∈ executeToolCalls okEnv [⟨"bogus", Json.jobj []⟩], False := by
  refine ⟨rfl, ?_⟩
  intro e he
  rw [show executeToolCalls okEnv [⟨"bogus", Json.jobj []⟩] = [] from rfl] at he
  simp at he

/-- C9 amended.  A ToolCall whose name is outside the fixed set of known
device operations is silently skipped — no event is emitted, nothing is
raised — and the remaining calls of the turn still execute. -/
theorem unknown_skipped (env : DeviceEnv) (c : ToolCall)
    (rest : List ToolCall) (h : c.name ∉ knownNames) :
    execOne env c = []
    ∧ executeToolCalls env (c :: rest) = executeToolCalls env rest := by
  simp only [knownNames, List.mem_cons, List.not_mem_nil, or_false,
    not_or] at h
  obtain ⟨h1, h2, h3, h4, h5, h6, h7, h8⟩ := h
  have he : execOne env c = [] := by
    simp [execOne, attempt, h1, h2, h3, h4, h5, h6, h7, h8]
  exact ⟨he, by simp [executeToolCalls, he]⟩

theorem executeToolCalls_append (env : DeviceEnv) (a b : List ToolCall) :
    executeToolCalls env (a ++ b)
      = executeToolCalls env a ++ executeToolCalls env b := by
  induction a with
  | nil => rfl
  | cons c rest ih => simp [executeToolCalls, ih]

theorem execOne_fail (env : DeviceEnv) (c : ToolCall) (err : String)
    (h : (attempt env c).2 = some err) :
    execOne env c
      = (attempt env c).1
        ++ [Event.logFail ("Tool call failed " ++ c.name ++ ": " ++ err),
            Event.exprSet AvatarExpression.SAD] := by
  unfold execOne
  rcases ha : attempt env c with ⟨evs, e⟩
  rw [ha] at h
  simp only at h
  subst h
  simp

/-- C2.  When the device operation of one dispatched ToolCall raises, the
error is caught for that call alone: its trace is whatever the operation
emitted before raising, followed by the failure report and the SAD failure
expression, and the trace of every preceding and following call of the turn
is unchanged — a failing call never aborts the remaining calls. -/
theorem dispatch_failure_isolated (env : DeviceEnv) (pre post : List ToolCall)
    (c : ToolCall) (err : String) (h : (attempt env c).2 = some err) :
    executeToolCalls env (pre ++ c :: post)
      = executeToolCalls env pre
        ++ ((attempt env c).1
            ++ [Event.logFail ("Tool call failed " ++ c.name ++ ": " ++ err),
                Event.exprSet AvatarExpression.SAD])
        ++ executeToolCalls env post := by
  rw [executeToolCalls_append]
  simp [executeToolCalls, execOne_fail env c err h]

/-- C2 witness: over an environment whose QMP endpoint raises, a failing
`vm_click` is followed by a still-executed `avatar_expression` call. -/
theorem dispatch_failure_isolated_witness :
    executeToolCalls qmpFailEnv
        ([] ++ ⟨"vm_click", Json.jobj [("x", Json.jnum 10), ("y", Json.jnum 20)]⟩
          :: [⟨"avatar_expression", Json.jobj [("expression", Json.jstr "happy")]⟩])
      = executeToolCalls qmpFailEnv []
        ++ ((attempt qmpFailEnv
              ⟨"vm_click", Json.jobj [("x", Json.jnum 10), ("y", Json.jnum 20)]⟩).1
            ++ [Event.logFail "Tool call failed vm_click: device error",
                Event.exprSet AvatarExpression.SAD])
        ++ executeToolCalls qmpFailEnv
            [⟨"avatar_expression", Json.jobj [("expression", Json.jstr "happy")]⟩] :=
  dispatch_failure_isolated qmpFailEnv [] _ _ "device error" rfl

theorem sendLoop_calls (env : DeviceEnv) (pre : List Chunk) (last : Chunk)
    (hpre : ∀ d ∈ pre, d.error = none ∧ d.done = false)
    (herr : last.error = none) (hdone : last.done = true) :
    ∀ buf : String,
      (sendLoop env buf (pre ++ [last])).calls
        = some (extractToolCalls (fullText buf (pre ++ [last]))) := by
  induction pre with
  | nil =>
    intro buf
    rcases last with ⟨t, dn, er⟩
    simp only at herr hdone
    subst herr; subst hdone
    rfl
  | cons d rest ih =>
    intro buf
    obtain ⟨hde, hdd⟩ := hpre d (by simp)
    rcases d with ⟨td, dd, de⟩
    simp only at hde hdd
    subst hde; subst hdd
    have step :
        (sendLoop env buf ((⟨td, false, none⟩ : Chunk) :: (rest ++ [last]))).calls
          = (sendLoop env (buf ++ td) (rest ++ [last])).calls := rfl
    rw [List.cons_append, step,
      ih (fun d hd => hpre d (by simp [hd])) (buf ++ td)]
    rfl

theorem findSpansPosAux_snd (fuel : ℕ) : ∀ (off : ℕ) (cs : List Char),
    (findSpansPosAux fuel off cs).map Prod.snd = findSpansAux fuel cs := by
  induction fuel with
  | zero => intro off cs; rfl
  | succ f ih =>
    intro off cs
    simp only [findSpansPosAux, findSpansAux]
    cases h1 : indexOfSeq openTag cs with
    | none => rfl
    | some i =>
      cases h2 : indexOfSeq closeTag (cs.drop (i + openTag.length)) with
      | none => simp [h2]
      | some j => simp [h2, ih]

theorem findSpansPosAux_lb (fuel : ℕ) : ∀ (off : ℕ) (cs : List Char)
    (p : ℕ × List Char), p ∈ findSpansPosAux fuel off cs → off ≤ p.1 := by
  induction fuel with
  | zero => intro off cs p hp; simp [findSpansPosAux] at hp
  | succ f ih =>
    intro off cs p hp
    simp only [findSpansPosAux] at hp
    cases h1 : indexOfSeq openTag cs with
    | none => rw [h1] at hp; simp at hp
    | some i =>
      rw [h1] at hp
      cases h2 : indexOfSeq closeTag (cs.drop (i + openTag.length)) with
      | none => simp [h2] at hp
      | some j =>
        simp only [h2, List.mem_cons] at hp
        rcases hp with hp | hp
        · subst hp; exact Nat.le_add_right off i
        · have := ih _ _ _ hp
          omega

theorem findSpansPosAux_pairwise (fuel : ℕ) : ∀ (off : ℕ) (cs : List Char),
    ((findSpansPosAux fuel off cs).map Prod.fst).Pairwise (· < ·) := by
  induction fuel with
  | zero => intro off cs; simp [findSpansPosAux]
  | succ f ih =>
    intro off cs
    simp only [findSpansPosAux]
    cases h1 : indexOfSeq openTag cs with
    | none => simp
    | some i =>
      cases h2 : indexOfSeq closeTag (cs.drop (i + openTag.length)) with
      | none => simp [h2]
      | some j =>
        simp only [h2, List.map_cons, List.pairwise_cons]
        constructor
        · intro q hq
          simp only [List.mem_map] at hq
          obtain ⟨p, hp, hq⟩ := hq
          have hlb := findSpansPosAux_lb f _ _ p hp
          have hlen : 0 < openTag.length := by norm_num [openTag]
          omega
        · exact ih _ _

theorem extract_eq_posScan (s : String) :
    extractToolCalls s
      = (findSpansPos s.data).filterMap (fun pm => parseSpan pm.2) := by
  rw [extractToolCalls, findSpans, findSpansPos,
    ← findSpansPosAux_snd (s.data.length + 1) 0 s.data, List.filterMap_map]
  rfl

/-- C1.  For every way of splitting a response text into a stream of
error-free chunks ending in the done chunk, the ToolCalls produced by the
turn (extraction runs once, on the accumulated buffer, at the done chunk)
are exactly those extracted from the full text arriving as one chunk; and
extraction returns the calls in left-to-right textual order of their
`<tool_call>` spans (the span positions scanned are strictly increasing). -/
theorem stream_extraction (env : DeviceEnv) (pre : List Chunk) (last : Chunk)
    (hpre : ∀ d ∈ pre, d.error = none ∧ d.done = false)
    (herr : last.error = none) (hdone : last.done = true) :
    (sendMessageRun env (pre ++ [last])).calls
      = some (extractToolCalls (fullText "" (pre ++ [last])))
    ∧ (∀ s : String,
        extractToolCalls s
          = (findSpansPos s.data).filterMap (fun pm => parseSpan pm.2)
        ∧ ((findSpansPos s.data).map Prod.fst).Pairwise (· < ·)) := by
  constructor
  · exact sendLoop_calls env pre last hpre herr hdone ""
  · intro s
    exact ⟨extract_eq_posScan s,
      findSpansPosAux_pairwise (s.data.length + 1) 0 s.data⟩

/-- C1 witness: a span split across a chunk boundary inside the close tag. -/
theorem stream_extraction_witness :
    (sendMessageRun okEnv
        ([⟨"<tool_call>\x7b\"name\": \"a\"\x7d</tool_", false, none⟩]
          ++ [⟨"call>", true, none⟩])).calls
      = some (extractToolCalls
          (fullText ""
            ([⟨"<tool_call>\x7b\"name\": \"a\"\x7d</tool_", false, none⟩]
              ++ [⟨"call>", true, none⟩])))
    ∧ (∀ s : String,
        extractToolCalls s
          = (findSpansPos s.data).filterMap (fun pm => parseSpan pm.2)
        ∧ ((findSpansPos s.data).map Prod.fst).Pairwise (· < ·)) :=
  stream_extraction okEnv _ _
    (by intro d hd; simp only [List.mem_singleton] at hd; subst hd
        exact ⟨rfl, rfl⟩)
    rfl rfl

theorem talkingAfter_append (a b : List Event) (bb : Bool) :
    talkingAfter bb (a ++ b) = talkingAfter (talkingAfter bb a) b := by
  induction a generalizing bb with
  | nil => rfl
  | cons e rest ih => cases e <;> simp [talkingAfter, ih]

theorem countStart_append (a b : List Event) :
    countStart (a ++ b) = countStart a + countStart b := by
  induction a with
  | nil => simp [countStart]
  | cons e rest ih => cases e <;> simp [countStart, ih] <;> omega

theorem countStop_append (a b : List Event) :
    countStop (a ++ b) = countStop a + countStop b := by
  induction a with
  | nil => simp [countStop]
  | cons e rest ih => cases e <;> simp [countStop, ih] <;> omega

theorem countFalls_append (a b : List Event) (bb : Bool) :
    countFalls bb (a ++ b)
      = countFalls bb a + countFalls (talkingAfter bb a) b := by
  induction a generalizing bb with
  | nil => simp [countFalls, talkingAfter]
  | cons e rest ih =>
    cases e <;> simp [countFalls, talkingAfter, ih] <;> omega

theorem talkFree_spec (evs : List Event) (h : talkFree evs = true) (bb : Bool) :
    talkingAfter bb evs = bb ∧ countStart evs = 0 ∧ countStop evs = 0
      ∧ countFalls bb evs = 0 := by
  induction evs generalizing bb with
  | nil => exact ⟨rfl, rfl, rfl, rfl⟩
  | cons e rest ih =>
    cases e <;> simp only [talkFree, List.all_cons, Bool.and_eq_true] at h <;>
      first
      | (exact absurd h.1 (by decide))
      | (obtain ⟨h1, h2, h3, h4⟩ := ih h.2 bb
         exact ⟨h1, by simpa [countStart] using h2,
           by simpa [countStop] using h3, by simpa [countFalls] using h4⟩)

theorem talkFree_append (a b : List Event) :
    talkFree (a ++ b) = (talkFree a && talkFree b) := by
  simp [talkFree, List.all_append]

theorem talkFree_runCmds (env : DeviceEnv) (cmds : List QmpCmd) :
    talkFree (runCmds env cmds).1 = true := by
  induction cmds with
  | nil => rfl
  | cons c rest ih =>
    simp only [runCmds]
    cases h : env.qmpExec c with
    | some err => simp [talkFree]
    | none => simpa [talkFree] using ih

theorem talkFree_vmOp (env : DeviceEnv) (cmds : List QmpCmd) (v : VncOp) :
    talkFree (vmOp env cmds v).1 = true := by
  unfold vmOp
  cases env.transport with
  | qmpT => exact talkFree_runCmds env cmds
  | vncT => cases h : env.vncExec v <;> simp [talkFree]
  | noneT => rfl

theorem talkFree_screenshotRun (env : DeviceEnv) :
    talkFree (screenshotRun env).1 = true := by
  unfold screenshotRun
  cases env.transport with
  | qmpT =>
    cases h : env.qmpExec (QmpCmd.screendump "/tmp/vm_screenshot.png") <;>
      simp [talkFree]
  | vncT => cases h : env.vncExec VncOp.vCapture <;> simp [talkFree]
  | noneT => rfl

theorem talkFree_analyzeEvents (env : DeviceEnv) :
    talkFree (analyzeEvents env) = true := by
  unfold analyzeEvents
  cases env.analyze <;> simp [talkFree]

theorem talkFree_wordEvents (i : ℕ) (w : String) :
    talkFree (wordEvents i w) = true := by
  unfold wordEvents
  by_cases h : i % 5 = 0 <;> simp [h, talkFree, blinkMsgs]

theorem talkFree_speakWordsAux (ws : List String) : ∀ i : ℕ,
    talkFree (speakWordsAux i ws) = true := by
  induction ws with
  | nil => intro i; rfl
  | cons w rest ih =>
    intro i
    simp [speakWordsAux, talkFree_append, talkFree_wordEvents, ih]

theorem speak_countStart (t : String) : countStart (speakEvents t) = 1 := by
  have h := talkFree_spec _ (talkFree_speakWordsAux (pyWords t) 0) false
  simp [speakEvents, countStart, countStart_append, h.2.1]

theorem speak_countStop (t : String) : countStop (speakEvents t) = 1 := by
  have h := talkFree_spec _ (talkFree_speakWordsAux (pyWords t) 0) false
  simp [speakEvents, countStop, countStop_append, h.2.2.1]

theorem speak_talkingAfter (t : String) (bb : Bool) :
    talkingAfter bb (speakEvents t) = false := by
  have h := talkFree_spec _ (talkFree_speakWordsAux (pyWords t) 0) true
  simp [speakEvents, talkingAfter, talkingAfter_append, h.1]

theorem speak_countFalls (t : String) (bb : Bool) :
    countFalls bb (speakEvents t) = 1 := by
  have h := talkFree_spec _ (talkFree_speakWordsAux (pyWords t) 0) true
  simp [speakEvents, countFalls, countFalls_append, talkingAfter_append,
    h.1, h.2.2.2, talkingAfter]

theorem neutral_of_talkFree (evs : List Event) (h : talkFree evs = true) :
    countStart evs = countStop evs ∧ talkingAfter false evs = false :=
  ⟨by rw [(talkFree_spec evs h false).2.1, (talkFree_spec evs h false).2.2.1],
   (talkFree_spec evs h false).1⟩

theorem attempt_talk (env : DeviceEnv) (c : ToolCall) :
    countStart (attempt env c).1 = countStop (attempt env c).1
    ∧ talkingAfter false (attempt env c).1 = false := by
  unfold attempt
  repeat' split
  all_goals
    first
    | exact neutral_of_talkFree _ rfl
    | exact neutral_of_talkFree _ (talkFree_vmOp _ _ _)
    | exact ⟨(speak_countStart _).trans (speak_countStop _).symm,
        speak_talkingAfter _ false⟩
    | exact neutral_of_talkFree _ (by
        rw [talkFree_append]
        simp only [talkFree_screenshotRun, Bool.true_and]
        split
        · exact talkFree_analyzeEvents env
        · rfl)
    | exact neutral_of_talkFree _ (by simp [talkFree])
    | exact neutral_of_talkFree _ (by
        simp [talkFree, List.all_map, Function.comp])

theorem execOne_talk (env : DeviceEnv) (c : ToolCall) :
    countStart (execOne env c) = countStop (execOne env c)
    ∧ talkingAfter false (execOne env c) = false := by
  unfold execOne
  rcases ha : attempt env c with ⟨evs, e⟩
  have h := attempt_talk env c
  rw [ha] at h
  simp only at h
  cases e with
  | none => exact h
  | some err =>
    refine ⟨?_, ?_⟩
    · rw [countStart_append, countStop_append, h.1]
      rfl
    · rw [talkingAfter_append, h.2]
      rfl

theorem executeToolCalls_talk (env : DeviceEnv) (calls : List ToolCall) :
    countStart (executeToolCalls env calls)
      = countStop (executeToolCalls env calls)
    ∧ talkingAfter false (executeToolCalls env calls) = false := by
  induction calls with
  | nil => exact ⟨rfl, rfl⟩
  | cons c rest ih =>
    have h1 := execOne_talk env c
    refine ⟨?_, ?_⟩
    · simp only [executeToolCalls, countStart_append, countStop_append,
        h1.1, ih.1]
    · simp only [executeToolCalls, talkingAfter_append, h1.2, ih.2]

theorem sendLoop_cons_err (env : DeviceEnv) (buf t : String) (dn : Bool)
    (e : String) (rest : List Chunk) :
    sendLoop env buf (⟨t, dn, some e⟩ :: rest)
      = ⟨[Event.logInfo ("AI Error: " ++ e), Event.avStop,
          Event.exprSet AvatarExpression.SAD], none⟩ := rfl

theorem sendLoop_cons_done (env : DeviceEnv) (buf t : String)
    (rest : List Chunk) :
    sendLoop env buf (⟨t, true, none⟩ :: rest)
      = ⟨(if containsTag (buf ++ t)
            then [Event.exprSet AvatarExpression.THINKING] else [])
          ++ Event.avStop ::
            (if (extractToolCalls (buf ++ t)).isEmpty
              then Event.exprSet AvatarExpression.HAPPY
                :: speakEvents (buf ++ t)
              else executeToolCalls env (extractToolCalls (buf ++ t)))
          ++ [Event.memRem (Json.jstr (buf ++ t)) (Json.jnum (1/2))],
         some (extractToolCalls (buf ++ t))⟩ := rfl

theorem sendLoop_cons_next (env : DeviceEnv) (buf t : String)
    (rest : List Chunk) :
    sendLoop env buf (⟨t, false, none⟩ :: rest)
      = ⟨(if containsTag (buf ++ t)
            then [Event.exprSet AvatarExpression.THINKING] else [])
          ++ (sendLoop env (buf ++ t) rest).events,
         (sendLoop env (buf ++ t) rest).calls⟩ := rfl

theorem happy_speak_counts (t : String) :
    countStart (Event.exprSet AvatarExpression.HAPPY :: speakEvents t)
      = countStop (Event.exprSet AvatarExpression.HAPPY :: speakEvents t) := by
  have h := talkFree_spec _ (talkFree_speakWordsAux (pyWords t) 0) true
  simp [speakEvents, countStart, countStop, countStart_append,
    countStop_append, h.2.1, h.2.2.1]

theorem happy_speak_after (t : String) :
    talkingAfter false (Event.exprSet AvatarExpression.HAPPY :: speakEvents t)
      = false := by
  simp only [talkingAfter]
  exact speak_talkingAfter t false

theorem doneTail_talk (env : DeviceEnv) (T M : List Event)
    (content importance : Json)
    (hT : talkFree T = true)
    (hM : countStart M = countStop M)
    (hMa : talkingAfter false M = false) :
    countStop (T ++ Event.avStop :: M ++ [Event.memRem content importance])
        = countStart (T ++ Event.avStop :: M
            ++ [Event.memRem content importance]) + 1
    ∧ talkingAfter true (T ++ Event.avStop :: M
        ++ [Event.memRem content importance]) = false := by
  obtain ⟨ha, hs1, hs2, _⟩ := talkFree_spec T hT true
  constructor
  · simp only [countStop_append, countStart_append, countStop, countStart]
    omega
  · rw [talkingAfter_append, talkingAfter_append, ha]
    simp only [talkingAfter, hMa]

theorem sendLoop_talk (env : DeviceEnv) (chunks : List Chunk) :
    ∀ buf : String,
      (∃ c ∈ chunks, c.error.isSome ∨ c.done = true) →
      countStop (sendLoop env buf chunks).events
          = countStart (sendLoop env buf chunks).events + 1
      ∧ talkingAfter true (sendLoop env buf chunks).events = false := by
  induction chunks with
  | nil => intro buf h; simp at h
  | cons c rest ih =>
    intro buf h
    rcases c with ⟨t, dn, er⟩
    cases er with
    | some e => rw [sendLoop_cons_err]; exact ⟨rfl, rfl⟩
    | none =>
      cases dn with
      | true =>
        rw [sendLoop_cons_done]
        have hT : talkFree (if containsTag (buf ++ t)
            then [Event.exprSet AvatarExpression.THINKING] else []) = true := by
          split <;> rfl
        apply doneTail_talk env _ _ _ _ hT
        · split
          · exact happy_speak_counts (buf ++ t)
          · exact (executeToolCalls_talk env _).1
        · split
          · exact happy_speak_after (buf ++ t)
          · exact (executeToolCalls_talk env _).2
      | false =>
        have hmem : ∃ d ∈ rest, d.error.isSome ∨ d.done = true := by
          rcases h with ⟨d, hd, hterm⟩
          rcases List.mem_cons.1 hd with hdc | hdr
          · subst hdc; simp at hterm
          · exact ⟨d, hdr, hterm⟩
        have hr := ih (buf ++ t) hmem
        rw [sendLoop_cons_next]
        have hT : talkFree (if containsTag (buf ++ t)
            then [Event.exprSet AvatarExpression.THINKING] else []) = true := by
          split <;> rfl
        obtain ⟨ha, hs1, hs2, _⟩ := talkFree_spec _ hT true
        constructor
        · simp only [countStop_append, countStart_append, hs1, hs2, hr.1]
          omega
        · rw [talkingAfter_append, ha, hr.2]

/-- C4 counterexample.  The claim says stop_talking is issued even when the
chunk stream terminates without a done or error chunk.  When the async
generator is exhausted without either, the loop simply ends: the turn's
trace is the lone `start_talking` and the talking flag is left set. -/
theorem talking_unpaired_cex :
    (sendMessageRun okEnv [⟨"hi", false, none⟩]).events = [Event.avStart]
    ∧ talkingAfter false (sendMessageRun okEnv [⟨"hi", false, none⟩]).events
        = true
    ∧ countStop (sendMessageRun okEnv [⟨"hi", false, none⟩]).events = 0 := by
  exact ⟨rfl, rfl, rfl⟩

/-- C4 amended.  For every `_send_message` turn whose chunk stream contains
a terminal chunk (an error chunk or a done chunk — which the chat client's
contract guarantees), start and stop talking transitions are paired: the
trace has equally many starts and stops and the talking flag ends false.
A stream that terminates without any terminal chunk leaves talking set. -/
theorem talking_paired (env : DeviceEnv) (chunks : List Chunk)
    (h : ∃ c ∈ chunks, c.error.isSome ∨ c.done = true) :
    countStart (sendMessageRun env chunks).events
      = countStop (sendMessageRun env chunks).events
    ∧ talkingAfter false (sendMessageRun env chunks).events = false := by
  have hl := sendLoop_talk env chunks "" h
  constructor
  · show countStart (Event.avStart :: (sendLoop env "" chunks).events)
      = countStop (Event.avStart :: (sendLoop env "" chunks).events)
    simp only [countStart, countStop, hl.1]
  · show talkingAfter false (Event.avStart :: (sendLoop env "" chunks).events)
      = false
    simp only [talkingAfter, hl.2]

/-- C4 witness: a single done chunk. -/
theorem talking_paired_witness :
    countStart (sendMessageRun okEnv [⟨"hello", true, none⟩]).events
      = countStop (sendMessageRun okEnv [⟨"hello", true, none⟩]).events
    ∧ talkingAfter false
        (sendMessageRun okEnv [⟨"hello", true, none⟩]).events = false :=
  talking_paired okEnv [⟨"hello", true, none⟩]
    ⟨⟨"hello", true, none⟩, by simp, Or.inr rfl⟩

theorem replicate_think_free (n : ℕ) :
    talkFree (List.replicate n (Event.exprSet AvatarExpression.THINKING))
      = true := by
  simp only [talkFree, List.all_eq_true]
  intro x hx
  rw [List.eq_of_mem_replicate hx]

theorem sendLoop_fallback (env : DeviceEnv) (pre : List Chunk) (last : Chunk)
    (hpre : ∀ d ∈ pre, d.error = none ∧ d.done = false)
    (herr : last.error = none) (hdone : last.done = true) :
    ∀ buf : String,
      extractToolCalls (fullText buf (pre ++ [last])) = [] →
      ∃ n : ℕ, (sendLoop env buf (pre ++ [last])).events
        = List.replicate n (Event.exprSet AvatarExpression.THINKING)
          ++ Event.avStop ::
            (Event.exprSet AvatarExpression.HAPPY
              :: speakEvents (fullText buf (pre ++ [last])))
          ++ [Event.memRem (Json.jstr (fullText buf (pre ++ [last])))
                (Json.jnum (1/2))] := by
  induction pre with
  | nil =>
    intro buf hempty
    rcases last with ⟨t, dn, er⟩
    simp only at herr hdone
    subst herr; subst hdone
    simp only [List.nil_append] at hempty ⊢
    have hft : fullText buf [(⟨t, true, none⟩ : Chunk)] = buf ++ t := rfl
    rw [hft] at hempty ⊢
    rw [sendLoop_cons_done]
    rw [hempty]
    simp only [List.isEmpty_nil, if_true]
    by_cases hth : containsTag (buf ++ t)
    · exact ⟨1, by rw [if_pos hth]; rfl⟩
    · exact ⟨0, by rw [if_neg hth]; rfl⟩
  | cons d rest ih =>
    intro buf hempty
    obtain ⟨hde, hdd⟩ := hpre d (by simp)
    rcases d with ⟨td, dd, de⟩
    simp only at hde hdd
    subst hde; subst hdd
    have hft : fullText buf (((⟨td, false, none⟩ : Chunk) :: rest) ++ [last])
        = fullText (buf ++ td) (rest ++ [last]) := rfl
    rw [hft] at hempty ⊢
    rw [List.cons_append, sendLoop_cons_next]
    obtain ⟨n, hn⟩ := ih (fun d hd => hpre d (by simp [hd])) (buf ++ td) hempty
    simp only [hn]
    by_cases hth : containsTag (buf ++ td)
    · exact ⟨n + 1, by rw [if_pos hth]; simp [List.replicate_succ]⟩
    · exact ⟨n, by rw [if_neg hth]; rfl⟩

/-- C6 counterexample.  The claim says that over a no-tool-call turn the
talking flag transitions true to false exactly once.  It falls twice: once
when the done chunk's `stop_talking` ends the streaming animation, and once
more when the fallback `speak_text` (which starts and stops talking itself)
finishes. -/
theorem fallback_two_falls_cex :
    countFalls false
        (sendMessageRun okEnv [⟨"hi there", true, none⟩]).events = 2
    ∧ countFalls false
        (sendMessageRun okEnv [⟨"hi there", true, none⟩]).events ≠ 1 := by
  refine ⟨rfl, ?_⟩
  rw [show countFalls false
      (sendMessageRun okEnv [⟨"hi there", true, none⟩]).events = 2 from rfl]
  decide

/-- C6 amended.  For every completed turn whose response text yields no
tool calls, the fallback speech path runs: after `start_talking`, some
THINKING flashes, the done chunk's `stop_talking`, the HAPPY expression and
the full per-word speech schedule (mouth pulses proportional to word
length, a blink every fifth word, talking started and then cleared at the
end), then the memory write — and over the whole turn the talking flag
transitions true to false exactly twice (not once), ending false. -/
theorem fallback_speech (env : DeviceEnv) (pre : List Chunk) (last : Chunk)
    (hpre : ∀ d ∈ pre, d.error = none ∧ d.done = false)
    (herr : last.error = none) (hdone : last.done = true)
    (hempty : extractToolCalls (fullText "" (pre ++ [last])) = []) :
    (∃ n : ℕ, (sendMessageRun env (pre ++ [last])).events
      = Event.avStart ::
        (List.replicate n (Event.exprSet AvatarExpression.THINKING)
          ++ Event.avStop ::
            (Event.exprSet AvatarExpression.HAPPY
              :: speakEvents (fullText "" (pre ++ [last])))
          ++ [Event.memRem (Json.jstr (fullText "" (pre ++ [last])))
                (Json.jnum (1/2))]))
    ∧ countFalls false (sendMessageRun env (pre ++ [last])).events = 2
    ∧ talkingAfter false (sendMessageRun env (pre ++ [last])).events
        = false := by
  obtain ⟨n, hn⟩ := sendLoop_fallback env pre last hpre herr hdone "" hempty
  have hev : (sendMessageRun env (pre ++ [last])).events
      = Event.avStart :: (sendLoop env "" (pre ++ [last])).events := rfl
  obtain ⟨hra, hrs1, hrs2, hrf⟩ := talkFree_spec _ (replicate_think_free n) true
  refine ⟨⟨n, by rw [hev, hn]⟩, ?_, ?_⟩
  · rw [hev, hn]
    have hsp1 := speak_countFalls (fullText "" (pre ++ [last]))
    have hsp2 := speak_talkingAfter (fullText "" (pre ++ [last]))
    generalize hg : speakEvents (fullText "" (pre ++ [last])) = SP
    rw [hg] at hsp1 hsp2
    simp [countFalls, countFalls_append, talkingAfter_append, talkingAfter,
      hra, hrf, hsp1, hsp2]
  · rw [hev, hn]
    have hsp2 := speak_talkingAfter (fullText "" (pre ++ [last]))
    generalize hg : speakEvents (fullText "" (pre ++ [last])) = SP
    rw [hg] at hsp2
    simp [talkingAfter, talkingAfter_append, hra, hsp2]

/-- C6 witness: the single done chunk `"ok bye"`, which contains no
tool-call span. -/
theorem fallback_speech_witness :
    (∃ n : ℕ, (sendMessageRun okEnv ([] ++ [⟨"ok bye", true, none⟩])).events
      = Event.avStart ::
        (List.replicate n (Event.exprSet AvatarExpression.THINKING)
          ++ Event.avStop ::
            (Event.exprSet AvatarExpression.HAPPY
              :: speakEvents (fullText "" ([] ++ [⟨"ok bye", true, none⟩])))
          ++ [Event.memRem
                (Json.jstr (fullText "" ([] ++ [⟨"ok bye", true, none⟩])))
                (Json.jnum (1/2))]))
    ∧ countFalls false
        (sendMessageRun okEnv ([] ++ [⟨"ok bye", true, none⟩])).events = 2
    ∧ talkingAfter false
        (sendMessageRun okEnv ([] ++ [⟨"ok bye", true, none⟩])).events
        = false :=
  fallback_speech okEnv [] ⟨"ok bye", true, none⟩ (by simp) rfl rfl rfl

/-- C9 witness: the unknown name `bogus` before an `avatar_expression`
call. -/
theorem unknown_skipped_witness :
    execOne okEnv ⟨"bogus", Json.jobj []⟩ = []
    ∧ executeToolCalls okEnv
        (⟨"bogus", Json.jobj []⟩
          :: [⟨"avatar_expression", Json.jobj [("expression", Json.jstr "happy")]⟩])
      = executeToolCalls okEnv
          [⟨"avatar_expression", Json.jobj [("expression", Json.jstr "happy")]⟩] :=
  unknown_skipped okEnv ⟨"bogus", Json.jobj []⟩ _ (by simp [knownNames])

end Agent41
